import Mathlib

/-!
Shallow embedding of `src/csv_db/core.py` (class `CsvDB`): a flat-file record
store over a csv file.  The csv line encode/decode collaborator is abstracted
away: a file is a header line plus data lines, each a list of cell strings.
Python values are taken after `str()` coercion, so all record values are
strings.  Python dictionaries are association lists whose lookup returns the
first binding (dictionaries never hold duplicate keys).
-/

namespace CsvDb

/-- One record, Python `dict[str, str]`: field name to (string-coerced) value. -/
abbrev Record := List (String × String)

/-- Dictionary access `r[k]` / `r.get(k)`: the first binding of key `k`. -/
def rlookup : Record → String → Option String
  | [], _ => none
  | kv :: rest, k => if kv.1 = k then some kv.2 else rlookup rest k

/-- The database file: the parsed header line and the parsed data lines
(each a list of cells).  A missing file is `(none : Option DBFile)`. -/
structure DBFile where
  header : List String
  rows : List (List String)
deriving DecidableEq, Repr

/-- The store object: it retains only the caller-supplied field collection
`self._fields` (the path is the implicit file-state argument of operations). -/
structure CsvDB where
  fields : List String
deriving DecidableEq, Repr

/-- The exception kinds raised by `core.py`: `ValueError`,
`MissingFieldsError`, `RepeatedFieldsError`, `FieldsMismatchError`,
`DatabaseLookupError`, plus `KeyError` for dictionary access inside a
query predicate. -/
inductive Err where
  | valueError (msg : String)
  | missingFieldsError (msg : String)
  | repeatedFieldsError (msg : String)
  | fieldsMismatchError (msg : String)
  | databaseLookupError (msg : String)
  | keyError (msg : String)
deriving DecidableEq, Repr

/-- Python `", ".join(l)`. -/
def joinComma : List String → String
  | [] => ""
  | [s] => s
  | s :: rest => s ++ ", " ++ joinComma rest

/-- Python `f"'{s}'"`: the name wrapped in single quotes, as used in the
error messages. -/
def strQuote (s : String) : String := "'" ++ s ++ "'"

/-- `CsvDB._has_missing_field_names`: whether the empty string occurs. -/
def hasMissingFieldNames (fields : List String) : Bool :=
  fields.any (fun f => f == "")

/-- Code-point comparison of two characters, the primitive of Python's string
ordering. -/
def charLt (a b : Char) : Bool := decide (a.toNat < b.toNat)

/-- Lexicographic code-point "less or equal" on character lists: Python's
string comparison. -/
def strLeChars : List Char → List Char → Bool
  | [], _ => true
  | _ :: _, [] => false
  | a :: as, b :: bs =>
    if charLt a b then true
    else if charLt b a then false
    else strLeChars as bs

/-- Python `a <= b` on strings. -/
def strLe (a b : String) : Bool := strLeChars a.data b.data

/-- Insertion step of the sort modelling Python `sorted`. -/
def insertSorted (s : String) : List String → List String
  | [] => [s]
  | x :: xs => if strLe s x then s :: x :: xs else x :: insertSorted s xs

/-- Python `sorted` on a list of strings (insertion sort over the code-point
order; on the deduplicated inputs used here the result is the unique sorted
arrangement, as for Python's sort). -/
def sortStrings : List String → List String
  | [] => []
  | x :: xs => insertSorted x (sortStrings xs)

/-- The list underlying `CsvDB._make_repeated_fields_str`:
`sorted({f"'{f}'" for f in fields if fields.count(f) > 1})` — the quoted
names of repeated fields, deduplicated (a Python set) and sorted. -/
def repeatedFieldsList (fields : List String) : List String :=
  sortStrings (((fields.filter (fun f => decide (1 < fields.count f))).map strQuote).dedup)

/-- `CsvDB._make_repeated_fields_str`: the joined string representation. -/
def makeRepeatedFieldsStr (fields : List String) : String :=
  joinComma (repeatedFieldsList fields)

/-- Python `set(a) == set(b)`: mutual membership of the two lists. -/
def setEq (a b : List String) : Bool :=
  a.all (fun x => b.contains x) && b.all (fun x => a.contains x)

/-- Message of the empty-collection `ValueError`. -/
def emptyCollectionMsg : String := "Argument 'fields' defines an empty collection."

/-- Message of the empty-field-names `ValueError`. -/
def emptyFieldNamesMsg : String := "Argument 'fields' contains empty field names."

/-- Message of the repeated-fields `ValueError`. -/
def repeatedFieldsMsg (fields : List String) : String :=
  "Argument 'fields' contains repeated fields: " ++ makeRepeatedFieldsStr fields ++ "."

/-- `CsvDB._validate_db_initialisation`, run at construction.  `fs` is the
state of the file at the store's path (`none` when it does not exist); its
parsed first line is `header` (a zero-byte existing file parses to `[""]`,
since Python `"".split(",") == [""]`).  Returns the raised exception, or
`none` when construction succeeds.  The file-side messages omit the path,
which the model does not carry. -/
def validateDbInitialisation (fields : List String) (fs : Option DBFile) : Option Err :=
  if fields.length = 0 then some (.valueError emptyCollectionMsg)
  else if hasMissingFieldNames fields then some (.valueError emptyFieldNamesMsg)
  else if makeRepeatedFieldsStr fields ≠ "" then some (.valueError (repeatedFieldsMsg fields))
  else
    match fs with
    | none => none
    | some f =>
      if hasMissingFieldNames f.header then
        some (.missingFieldsError "Database file contains empty field names.")
      else if makeRepeatedFieldsStr f.header ≠ "" then
        some (.repeatedFieldsError "Database file contains repeated fields.")
      else if setEq fields f.header then none
      else some (.fieldsMismatchError "'fields' does not agree with the fields defined in the database file.")

/-- Message of the `ValueError` raised by `csv.DictWriter` (default
`extrasaction="raise"`) when a record holds keys outside the fieldnames. -/
def extrasMsg : String := "dict contains fields not in fieldnames"

/-- The cell list `csv.DictWriter` produces for a record: one cell per
fieldname, in the writer's fieldname order, missing keys filled with the
writer's `restval` (the empty string). -/
def okRow (fields : List String) (r : Record) : List String :=
  fields.map (fun k => (rlookup r k).getD "")

/-- `csv.DictWriter._dict_to_list` with `extrasaction="raise"` and
`restval=""`: fails on any key outside `fields`, else positions the values
by `fields` order. -/
def dictToList (fields : List String) (r : Record) : Except Err (List String) :=
  if r.any (fun kv => ! fields.contains kv.1) then .error (.valueError extrasMsg)
  else .ok (okRow fields r)

/-- The fields of the schema absent from a record, in schema order:
`[k for k in self._fields if k not in record]` (from `CsvDB.create`). -/
def missingFieldsOf (db : CsvDB) (r : Record) : List String :=
  db.fields.filter (fun k => (rlookup r k).isNone)

/-- Message of the missing-fields `ValueError` raised by `CsvDB.create`. -/
def missingMsg (db : CsvDB) (r : Record) : String :=
  "Argument 'record' missing the following fields: "
    ++ joinComma ((missingFieldsOf db r).map strQuote) ++ "."

/-- `CsvDB.create`: returns the file state after the call and the raised
exception, if any.  Mode `"x"` (file absent) writes the header — in the
declared field order — before `writerow`, so a failing `writerow` still
leaves a header-only file behind; mode `"a"` appends the one data line. -/
def create (db : CsvDB) (r : Record) (fs : Option DBFile) : Option DBFile × Option Err :=
  if missingFieldsOf db r ≠ [] then (fs, some (.valueError (missingMsg db r)))
  else
    match fs with
    | some f =>
      match dictToList db.fields r with
      | .error e => (some f, some e)
      | .ok row => (some { f with rows := f.rows ++ [row] }, none)
    | none =>
      match dictToList db.fields r with
      | .error e => (some ⟨db.fields, []⟩, some e)
      | .ok row => (some ⟨db.fields, [row]⟩, none)

/-- One row as `csv.DictReader(csvfile, self._fields)` yields it: cells are
paired with the caller-supplied fieldnames positionally.  A row shorter
than `fields` leaves the trailing fieldnames bound to `None` in Python,
i.e. unbound here; a longer row parks the surplus cells under the
non-string restkey `None`, invisible to any string lookup (the `update`
theorems therefore assume rows of schema arity, which every file written
by the store satisfies). -/
def readRow (fields : List String) (cells : List String) : Record :=
  List.zip fields cells

/-- The rows yielded by `CsvDB._make_data_reader`: every line after the
header (which `next(reader)` consumes), blank lines skipped by the csv
reader. -/
def dataRecords (fields : List String) (f : DBFile) : List Record :=
  (f.rows.filter (fun c => ! c.isEmpty)).map (readRow fields)

/-- Message of the `DatabaseLookupError` raised by `CsvDB._validate_field`. -/
def lookupErrMsg (field : String) : String :=
  strQuote field ++ " does not define a field in the database."

/-- `CsvDB._validate_field`: the raised exception, or `none`. -/
def validateField (db : CsvDB) (field : String) : Option Err :=
  if db.fields.contains field then none
  else some (.databaseLookupError (lookupErrMsg field))

/-- `CsvDB.retrieve`: returns the file state after the call (the file is
only opened for reading) and the outcome — the first data row whose
`field` entry equals the (string-coerced) value, if any. -/
def retrieve (db : CsvDB) (value field : String) (fs : Option DBFile) :
    Option DBFile × Except Err (Option Record) :=
  match validateField db field with
  | some e => (fs, .error e)
  | none =>
    match fs with
    | none => (fs, .ok none)
    | some f =>
      (fs, .ok ((dataRecords db.fields f).find? (fun q => rlookup q field == some value)))

/-- The record list produced by `CsvDB.query` with no predicate:
`tuple(filter(None, reader))` — Python `filter(None, ·)` keeps the truthy
(non-empty) row dictionaries. -/
def queryRecords (db : CsvDB) (fs : Option DBFile) : List Record :=
  match fs with
  | none => []
  | some f => (dataRecords db.fields f).filter (fun q => ! q.isEmpty)

/-- Message of the `DatabaseLookupError` that `CsvDB.query` raises when the
predicate raised `KeyError`. -/
def badPredLookupMsg : String :=
  "Bad 'predicate_fn': attempted to look up a field not in the database."

/-- The exception translation in `CsvDB.query`: `KeyError` becomes
`DatabaseLookupError`; any other exception is re-raised with the same
class and a prefixed message. -/
def wrapPredErr : Err → Err
  | .keyError _ => .databaseLookupError badPredLookupMsg
  | .valueError m => .valueError ("Bad 'predicate_fn': " ++ m)
  | .missingFieldsError m => .missingFieldsError ("Bad 'predicate_fn': " ++ m)
  | .repeatedFieldsError m => .repeatedFieldsError ("Bad 'predicate_fn': " ++ m)
  | .fieldsMismatchError m => .fieldsMismatchError ("Bad 'predicate_fn': " ++ m)
  | .databaseLookupError m => .databaseLookupError ("Bad 'predicate_fn': " ++ m)

/-- Python `tuple(filter(p, rows))` for a possibly-raising predicate: the
first exception aborts the pass. -/
def filterExc (p : Record → Except Err Bool) : List Record → Except Err (List Record)
  | [] => .ok []
  | q :: rest =>
    match p q with
    | .error e => .error e
    | .ok b =>
      match filterExc p rest with
      | .error e => .error e
      | .ok tail => .ok (if b then q :: tail else tail)

/-- `CsvDB.query`: returns the file state after the call (the file is only
opened for reading) and the outcome. -/
def query (db : CsvDB) (p : Option (Record → Except Err Bool)) (fs : Option DBFile) :
    Option DBFile × Except Err (List Record) :=
  match fs with
  | none => (fs, .ok [])
  | some f =>
    match p with
    | none => (fs, .ok (queryRecords db fs))
    | some pf =>
      match filterExc pf (dataRecords db.fields f) with
      | .ok rs => (fs, .ok rs)
      | .error e => (fs, .error (wrapPredErr e))

/-- Message of the `DatabaseLookupError` raised by `CsvDB.update` when no
record matches. -/
def notFoundMsg (field value : String) : String :=
  "Could not find record with " ++ field ++ " = " ++ value ++ "."

/-- Python `tuple(...).index(x)`: the first position holding `x`, or `none`
(where Python raises `ValueError`). -/
def indexOfVal (value : String) : List (Option String) → Option Nat
  | [] => none
  | v :: rest => if v = some value then some 0 else (indexOfVal value rest).map (· + 1)

/-- The body rewrite of `CsvDB.update`: `writer.writerows(records)` with
the declared fieldnames.  Rows are written one by one; a record with keys
outside the fieldnames raises mid-way, keeping the lines already written. -/
def writerows (fields : List String) : List Record → List (List String) × Option Err
  | [] => ([], none)
  | q :: rest =>
    match dictToList fields q with
    | .error e => ([], some e)
    | .ok row =>
      let out := writerows fields rest
      (row :: out.1, out.2)

/-- `CsvDB.update`: validates the field, materialises `self.query()`,
locates the first record whose `field` entry equals the value, replaces it
in place, then rewrites the whole file in mode `"w"`: the header — in the
declared field order — followed by every record. -/
def update (db : CsvDB) (value field : String) (r : Record) (fs : Option DBFile) :
    Option DBFile × Option Err :=
  match validateField db field with
  | some e => (fs, some e)
  | none =>
    let records := queryRecords db fs
    match indexOfVal value (records.map (fun q => rlookup q field)) with
    | none => (fs, some (.databaseLookupError (notFoundMsg field value)))
    | some i =>
      let out := writerows db.fields (records.set i r)
      (some ⟨db.fields, out.1⟩, out.2)

/-- A sequence of `create` calls; a raise aborts the sequence. -/
def createAll (db : CsvDB) (rs : List Record) (fs : Option DBFile) :
    Option DBFile × Option Err :=
  match rs with
  | [] => (fs, none)
  | r :: rest =>
    let out := create db r fs
    match out.2 with
    | some e => (out.1, some e)
    | none => createAll db rest out.1

/-- Equality of records as Python dictionaries: the same value (or absence)
at every key. -/
def RecEquiv (a b : Record) : Prop := ∀ k, rlookup a k = rlookup b k

theorem rlookup_mem {r : Record} {k : String} {v : String} (h : rlookup r k = some v) :
    (k, v) ∈ r := by
  induction r with
  | nil => simp [rlookup] at h
  | cons kv rest ih =>
    obtain ⟨k1, v1⟩ := kv
    by_cases hk : k1 = k
    · subst hk
      simp [rlookup] at h
      subst h
      exact List.mem_cons_self _ _
    · simp only [rlookup, if_neg hk] at h
      exact List.mem_cons_of_mem _ (ih h)

theorem rlookup_isSome_of_mem {r : Record} {kv : String × String} (h : kv ∈ r) :
    (rlookup r kv.1).isSome = true := by
  induction r with
  | nil => simp at h
  | cons a rest ih =>
    by_cases ha : a.1 = kv.1
    · simp [rlookup, ha]
    · rcases List.mem_cons.1 h with h1 | h2
      · subst h1; exact absurd rfl ha
      · simpa [rlookup, ha] using ih h2

theorem rlookup_zip_map (fields : List String) (g : String → String) (k : String) :
    rlookup (List.zip fields (fields.map g)) k = if k ∈ fields then some (g k) else none := by
  induction fields with
  | nil => simp [rlookup]
  | cons f t ih =>
    rw [List.map_cons, List.zip_cons_cons]
    by_cases hf : f = k
    · subst hf
      simp [rlookup]
    · have h1 : rlookup ((f, g f) :: List.zip t (List.map g t)) k
          = rlookup (List.zip t (List.map g t)) k := by
        simp [rlookup, hf]
      have h2 : (k ∈ f :: t) ↔ (k ∈ t) := by
        rw [List.mem_cons]
        exact or_iff_right (fun h => hf h.symm)
      rw [h1, ih, if_congr h2 rfl rfl]

theorem okRow_readRow {fields cells : List String} (hnd : fields.Nodup)
    (hlen : cells.length = fields.length) :
    okRow fields (readRow fields cells) = cells := by
  induction fields generalizing cells with
  | nil =>
    have : cells = [] := List.length_eq_zero.1 hlen
    simp [this, okRow]
  | cons f t ih =>
    match cells with
    | [] => simp at hlen
    | c :: cs =>
      have hnd' : t.Nodup := (List.nodup_cons.1 hnd).2
      have hf : f ∉ t := (List.nodup_cons.1 hnd).1
      have hlen' : cs.length = t.length := by simpa using hlen
      simp only [readRow, List.zip_cons_cons, okRow, List.map_cons, List.cons.injEq]
      refine ⟨by simp [rlookup], ?_⟩
      have hcong : ∀ k ∈ t, ((rlookup ((f, c) :: List.zip t cs) k).getD "")
          = ((rlookup (List.zip t cs) k).getD "") := by
        intro k hk
        have hne : ¬ f = k := fun hfk => hf (hfk ▸ hk)
        simp [rlookup, hne]
      rw [List.map_congr_left hcong]
      exact ih hnd' hlen'

theorem readRow_keys {fields cells : List String} {kv : String × String}
    (h : kv ∈ readRow fields cells) : kv.1 ∈ fields := by
  obtain ⟨a, b⟩ := kv
  exact (List.of_mem_zip h).1

theorem readRow_equiv {fields : List String} {r : Record}
    (hfull : ∀ k ∈ fields, (rlookup r k).isSome = true)
    (hkeys : ∀ kv ∈ r, kv.1 ∈ fields) :
    RecEquiv (readRow fields (okRow fields r)) r := by
  intro k
  have hz : rlookup (readRow fields (okRow fields r)) k
      = if k ∈ fields then some ((rlookup r k).getD "") else none := by
    simpa [readRow, okRow] using rlookup_zip_map fields (fun k => (rlookup r k).getD "") k
  by_cases hk : k ∈ fields
  · rw [hz, if_pos hk]
    rcases Option.isSome_iff_exists.1 (hfull k hk) with ⟨v, hv⟩
    simp [hv]
  · rw [hz, if_neg hk]
    cases hv : rlookup r k with
    | none => rfl
    | some v => exact absurd (hkeys _ (rlookup_mem hv)) hk

theorem dictToList_ok {fields : List String} {r : Record}
    (h : ∀ kv ∈ r, kv.1 ∈ fields) :
    dictToList fields r = .ok (okRow fields r) := by
  have hany : r.any (fun kv => ! fields.contains kv.1) = false := by
    rw [List.any_eq_false]
    intro kv hkv
    simp [List.contains, h kv hkv]
  unfold dictToList
  rw [hany]
  simp

theorem dictToList_err {fields : List String} {r : Record}
    (h : ∃ kv ∈ r, kv.1 ∉ fields) :
    dictToList fields r = .error (.valueError extrasMsg) := by
  have hany : r.any (fun kv => ! fields.contains kv.1) = true := by
    rcases h with ⟨kv, hkv, hout⟩
    refine List.any_eq_true.2 ⟨kv, hkv, ?_⟩
    simp [List.contains, hout]
  unfold dictToList
  rw [hany]
  simp

theorem writerows_ok {fields : List String} {rs : List Record}
    (h : ∀ q ∈ rs, ∀ kv ∈ q, kv.1 ∈ fields) :
    writerows fields rs = (rs.map (okRow fields), none) := by
  induction rs with
  | nil => rfl
  | cons q rest ih =>
    have h1 : ∀ kv ∈ q, kv.1 ∈ fields := h q (List.mem_cons_self _ _)
    have h2 : ∀ p ∈ rest, ∀ kv ∈ p, kv.1 ∈ fields := fun p hp => h p (List.mem_cons_of_mem _ hp)
    simp [writerows, dictToList_ok h1, ih h2]

theorem strQuote_ne_empty (s : String) : strQuote s ≠ "" := by
  intro h
  have hlen := congrArg String.length h
  have h1 : ("'" : String).length = 1 := rfl
  simp [strQuote, String.length_append, h1] at hlen

theorem joinComma_ne_empty {x : String} {xs : List String} (hx : x ≠ "") :
    joinComma (x :: xs) ≠ "" := by
  cases xs with
  | nil => simpa [joinComma] using hx
  | cons y ys =>
    intro h
    have hlen := congrArg String.length h
    have hx' : x.length ≠ 0 := fun h0 => hx (by
      have : x.data.length = 0 := h0
      exact String.ext (List.length_eq_zero.1 this))
    simp [joinComma, String.length_append] at hlen
    omega

theorem mem_insertSorted {s x : String} {l : List String} :
    x ∈ insertSorted s l ↔ x = s ∨ x ∈ l := by
  induction l with
  | nil => simp [insertSorted]
  | cons y ys ih =>
    by_cases h : strLe s y = true
    · simp [insertSorted, h, List.mem_cons]
    · simp only [insertSorted, if_neg h, List.mem_cons, ih]
      tauto

theorem insertSorted_perm (s : String) (l : List String) :
    List.Perm (insertSorted s l) (s :: l) := by
  induction l with
  | nil => exact List.Perm.refl _
  | cons y ys ih =>
    by_cases h : strLe s y = true
    · rw [insertSorted, if_pos h]
    · rw [insertSorted, if_neg h]
      exact (ih.cons y).trans (List.Perm.swap s y ys)

theorem sortStrings_perm (l : List String) : List.Perm (sortStrings l) l := by
  induction l with
  | nil => exact List.Perm.refl _
  | cons x xs ih => exact (insertSorted_perm x (sortStrings xs)).trans (ih.cons x)

theorem mem_sortStrings {x : String} {l : List String} : x ∈ sortStrings l ↔ x ∈ l :=
  (sortStrings_perm l).mem_iff

theorem insertSorted_ne_nil (s : String) (l : List String) : insertSorted s l ≠ [] := by
  cases l with
  | nil => simp [insertSorted]
  | cons y ys =>
    rw [insertSorted]
    split <;> simp

theorem sortStrings_eq_nil {l : List String} : sortStrings l = [] ↔ l = [] := by
  constructor
  · intro h
    cases l with
    | nil => rfl
    | cons x xs => exact absurd h (insertSorted_ne_nil x (sortStrings xs))
  · intro h
    subst h
    rfl

theorem strLeChars_cons_eq (a b : Char) (as bs : List Char) :
    strLeChars (a :: as) (b :: bs)
      = (if charLt a b then true else if charLt b a then false else strLeChars as bs) := rfl

theorem strLeChars_cons {a b : Char} {as bs : List Char} :
    strLeChars (a :: as) (b :: bs) = true ↔
      (a.toNat < b.toNat ∨ (a.toNat = b.toNat ∧ strLeChars as bs = true)) := by
  rw [strLeChars_cons_eq]
  by_cases h1 : a.toNat < b.toNat
  · rw [if_pos (by simpa [charLt] using h1)]
    simp [h1]
  · rw [if_neg (by simpa [charLt] using h1)]
    by_cases h2 : b.toNat < a.toNat
    · rw [if_pos (by simpa [charLt] using h2)]
      constructor
      · intro h
        cases h
      · rintro (h | ⟨he, _⟩)
        · omega
        · omega
    · rw [if_neg (by simpa [charLt] using h2)]
      have he : a.toNat = b.toNat := by omega
      simp [he]

theorem strLeChars_trans : ∀ {as bs cs : List Char},
    strLeChars as bs = true → strLeChars bs cs = true → strLeChars as cs = true
  | [], _, _, _, _ => rfl
  | _ :: _, [], _, h1, _ => by simp [strLeChars] at h1
  | _ :: _, _ :: _, [], _, h2 => by simp [strLeChars] at h2
  | a :: as, b :: bs, c :: cs, h1, h2 => by
    rw [strLeChars_cons] at h1 h2 ⊢
    rcases h1 with h1 | ⟨he1, hr1⟩
    · rcases h2 with h2 | ⟨he2, _⟩
      · left; omega
      · left; omega
    · rcases h2 with h2 | ⟨he2, hr2⟩
      · left; omega
      · right
        exact ⟨by omega, strLeChars_trans hr1 hr2⟩

theorem strLeChars_total (as : List Char) : ∀ bs : List Char,
    strLeChars as bs = true ∨ strLeChars bs as = true := by
  induction as with
  | nil => intro bs; left; rfl
  | cons a as ih =>
    intro bs
    cases bs with
    | nil => right; rfl
    | cons b bs' =>
      by_cases h1 : charLt a b = true
      · left
        rw [strLeChars, if_pos h1]
      · by_cases h2 : charLt b a = true
        · right
          rw [strLeChars, if_pos h2]
        · rcases ih bs' with h | h
          · left
            rw [strLeChars, if_neg h1, if_neg h2]
            exact h
          · right
            rw [strLeChars, if_neg h2, if_neg h1]
            exact h

theorem pairwise_insertSorted (s : String) (l : List String)
    (hl : l.Pairwise (fun a b => strLe a b = true)) :
    (insertSorted s l).Pairwise (fun a b => strLe a b = true) := by
  induction l with
  | nil => simp [insertSorted]
  | cons y ys ih =>
    rcases List.pairwise_cons.1 hl with ⟨hy, hys⟩
    by_cases h : strLe s y = true
    · rw [insertSorted, if_pos h]
      refine List.pairwise_cons.2 ⟨?_, hl⟩
      intro z hz
      rcases List.mem_cons.1 hz with rfl | hz'
      · exact h
      · exact strLeChars_trans h (hy z hz')
    · rw [insertSorted, if_neg h]
      refine List.pairwise_cons.2 ⟨?_, ih hys⟩
      intro z hz
      rcases mem_insertSorted.1 hz with hzs | hz'
      · rcases strLeChars_total s.data y.data with ht | ht
        · exact absurd ht h
        · rw [hzs]
          exact ht
      · exact hy z hz'

theorem pairwise_sortStrings (l : List String) :
    (sortStrings l).Pairwise (fun a b => strLe a b = true) := by
  induction l with
  | nil => exact List.Pairwise.nil
  | cons x xs ih => exact pairwise_insertSorted x (sortStrings xs) ih

theorem repeatedFieldsList_eq_nil {fields : List String} :
    repeatedFieldsList fields = [] ↔ fields.Nodup := by
  unfold repeatedFieldsList
  rw [sortStrings_eq_nil, List.dedup_eq_nil, List.map_eq_nil_iff, List.filter_eq_nil_iff]
  constructor
  · intro h
    rw [List.nodup_iff_count_le_one]
    intro a
    by_cases ha : a ∈ fields
    · have := h a ha
      simp only [decide_eq_true_eq] at this
      omega
    · simp [List.count_eq_zero_of_not_mem ha]
  · intro h a ha
    have := List.nodup_iff_count_le_one.1 h a
    simp only [decide_eq_true_eq]
    omega

theorem hasMissing_iff {fields : List String} :
    hasMissingFieldNames fields = true ↔ "" ∈ fields := by
  simp [hasMissingFieldNames]

theorem makeRepeatedFieldsStr_eq_empty {fields : List String} :
    makeRepeatedFieldsStr fields = "" ↔ fields.Nodup := by
  constructor
  · intro h
    by_contra hnd
    have hne : repeatedFieldsList fields ≠ [] := fun hnil => hnd (repeatedFieldsList_eq_nil.1 hnil)
    obtain ⟨x, xs, hx⟩ := List.exists_cons_of_ne_nil hne
    have hxmem : x ∈ repeatedFieldsList fields := hx ▸ List.mem_cons_self x xs
    have hxq : ∃ g, x = strQuote g := by
      unfold repeatedFieldsList at hxmem
      rw [mem_sortStrings, List.mem_dedup] at hxmem
      rcases List.mem_map.1 hxmem with ⟨g, _, hg⟩
      exact ⟨g, hg.symm⟩
    rcases hxq with ⟨g, hg⟩
    have hxe : x ≠ "" := hg ▸ strQuote_ne_empty g
    rw [makeRepeatedFieldsStr, hx] at h
    exact joinComma_ne_empty hxe h
  · intro h
    rw [makeRepeatedFieldsStr, repeatedFieldsList_eq_nil.2 h]
    rfl

theorem validate_none_ok {fields : List String} (hne : fields ≠ [])
    (hbl : "" ∉ fields) (hnd : fields.Nodup) :
    validateDbInitialisation fields none = none := by
  simp only [validateDbInitialisation]
  rw [if_neg (by rw [List.length_eq_zero]; exact hne),
    if_neg (by rw [hasMissing_iff]; exact hbl),
    if_neg (by push_neg; exact makeRepeatedFieldsStr_eq_empty.2 hnd)]

theorem validate_some_ok {fields header : List String} {rows : List (List String)}
    (hne : fields ≠ []) (hbl : "" ∉ fields) (hnd : fields.Nodup)
    (hhbl : "" ∉ header) (hhnd : header.Nodup)
    (hset : setEq fields header = true) :
    validateDbInitialisation fields (some ⟨header, rows⟩) = none := by
  simp only [validateDbInitialisation]
  rw [if_neg (by rw [List.length_eq_zero]; exact hne),
    if_neg (by rw [hasMissing_iff]; exact hbl),
    if_neg (by push_neg; exact makeRepeatedFieldsStr_eq_empty.2 hnd)]
  show (if hasMissingFieldNames header = true then _ else _) = none
  rw [if_neg (by rw [hasMissing_iff]; exact hhbl),
    if_neg (by push_neg; exact makeRepeatedFieldsStr_eq_empty.2 hhnd),
    if_pos hset]

theorem dataRecords_all {fields : List String} {file : DBFile} (hne : fields ≠ [])
    (hlen : ∀ c ∈ file.rows, c.length = fields.length) :
    dataRecords fields file = file.rows.map (readRow fields) := by
  unfold dataRecords
  rw [List.filter_eq_self.2]
  intro c hc
  have hlc := hlen c hc
  have hcne : c ≠ [] := by
    intro h0
    subst h0
    exact hne (List.length_eq_zero.1 (by simpa using hlc.symm))
  simp [List.isEmpty_iff, hcne]

theorem queryRecords_eq {db : CsvDB} {file : DBFile} (hne : db.fields ≠ [])
    (hlen : ∀ c ∈ file.rows, c.length = db.fields.length) :
    queryRecords db (some file) = file.rows.map (readRow db.fields) := by
  show (dataRecords db.fields file).filter (fun q => ! q.isEmpty)
      = file.rows.map (readRow db.fields)
  rw [dataRecords_all hne hlen, List.filter_eq_self.2]
  intro q hq
  rcases List.mem_map.1 hq with ⟨c, hc, hqc⟩
  subst hqc
  have hlc := hlen c hc
  have hqne : readRow db.fields c ≠ [] := by
    intro h0
    have hl0 : (readRow db.fields c).length = 0 := by rw [h0]; rfl
    rw [readRow, List.length_zip, hlc, Nat.min_self] at hl0
    exact hne (List.length_eq_zero.1 hl0)
  simp [List.isEmpty_iff, hqne]

theorem query_none_eq (db : CsvDB) (fs : Option DBFile) :
    query db none fs = (fs, .ok (queryRecords db fs)) := by
  cases fs <;> rfl

theorem missingFieldsOf_eq_nil {db : CsvDB} {r : Record}
    (hfull : ∀ k ∈ db.fields, (rlookup r k).isSome = true) :
    missingFieldsOf db r = [] := by
  rw [missingFieldsOf, List.filter_eq_nil_iff]
  intro k hk
  rcases Option.isSome_iff_exists.1 (hfull k hk) with ⟨v, hv⟩
  simp [hv]

theorem create_full_some {db : CsvDB} {r : Record} (f : DBFile)
    (hfull : ∀ k ∈ db.fields, (rlookup r k).isSome = true)
    (hkeys : ∀ kv ∈ r, kv.1 ∈ db.fields) :
    create db r (some f) = (some ⟨f.header, f.rows ++ [okRow db.fields r]⟩, none) := by
  simp [create, missingFieldsOf_eq_nil hfull, dictToList_ok hkeys]

theorem create_full_none {db : CsvDB} {r : Record}
    (hfull : ∀ k ∈ db.fields, (rlookup r k).isSome = true)
    (hkeys : ∀ kv ∈ r, kv.1 ∈ db.fields) :
    create db r none = (some ⟨db.fields, [okRow db.fields r]⟩, none) := by
  simp [create, missingFieldsOf_eq_nil hfull, dictToList_ok hkeys]

theorem createAll_from_file {db : CsvDB} (recs : List Record) :
    ∀ (H : List String) (rows : List (List String)),
    (∀ r ∈ recs, (∀ k ∈ db.fields, (rlookup r k).isSome = true)
      ∧ (∀ kv ∈ r, kv.1 ∈ db.fields)) →
    createAll db recs (some ⟨H, rows⟩)
      = (some ⟨H, rows ++ recs.map (okRow db.fields)⟩, none) := by
  induction recs with
  | nil =>
    intro H rows _
    simp [createAll]
  | cons r rest ih =>
    intro H rows h
    have h1 := h r (List.mem_cons_self _ _)
    have hrest := fun p hp => h p (List.mem_cons_of_mem _ hp)
    simp only [createAll, create_full_some ⟨H, rows⟩ h1.1 h1.2]
    rw [ih H (rows ++ [okRow db.fields r]) hrest]
    simp

theorem validateField_mem {db : CsvDB} {field : String} (hf : field ∈ db.fields) :
    validateField db field = none := by
  simp [validateField, List.contains, hf]

theorem validateField_not_mem {db : CsvDB} {field : String} (hf : field ∉ db.fields) :
    validateField db field = some (.databaseLookupError (lookupErrMsg field)) := by
  simp [validateField, List.contains, hf]

theorem indexOfVal_eq_none {value : String} {l : List (Option String)}
    (h : ∀ v ∈ l, v ≠ some value) : indexOfVal value l = none := by
  induction l with
  | nil => rfl
  | cons v rest ih =>
    rw [indexOfVal, if_neg (h v (List.mem_cons_self _ _)),
      ih (fun w hw => h w (List.mem_cons_of_mem _ hw))]
    rfl

theorem update_found {db : CsvDB} {file : DBFile} {value field : String} {r : Record} {i : Nat}
    (hnd : db.fields.Nodup) (hne : db.fields ≠ [])
    (hlen : ∀ c ∈ file.rows, c.length = db.fields.length)
    (hf : field ∈ db.fields)
    (hkeys : ∀ kv ∈ r, kv.1 ∈ db.fields)
    (hidx : indexOfVal value ((queryRecords db (some file)).map (fun q => rlookup q field))
      = some i) :
    update db value field r (some file)
      = (some ⟨db.fields, file.rows.set i (okRow db.fields r)⟩, none) := by
  have hrecords : queryRecords db (some file) = file.rows.map (readRow db.fields) :=
    queryRecords_eq hne hlen
  have hkeysall : ∀ q ∈ (queryRecords db (some file)).set i r, ∀ kv ∈ q, kv.1 ∈ db.fields := by
    intro q hq kv hkv
    rcases List.mem_or_eq_of_mem_set hq with hmem | hqr
    · rw [hrecords] at hmem
      rcases List.mem_map.1 hmem with ⟨c, _, hqc⟩
      subst hqc
      exact readRow_keys hkv
    · subst hqr
      exact hkeys kv hkv
  have hwr : writerows db.fields ((queryRecords db (some file)).set i r)
      = (((queryRecords db (some file)).set i r).map (okRow db.fields), none) :=
    writerows_ok hkeysall
  have hmap : ((queryRecords db (some file)).set i r).map (okRow db.fields)
      = file.rows.set i (okRow db.fields r) := by
    rw [hrecords, List.map_set, List.map_map]
    have hid : ∀ c ∈ file.rows, (okRow db.fields ∘ readRow db.fields) c = c :=
      fun c hc => okRow_readRow hnd (hlen c hc)
    rw [List.map_congr_left hid, List.map_id']
  simp only [update, validateField_mem hf, hidx, hwr, hmap]

theorem validate_not_valueError {fields : List String} (hne : fields ≠ [])
    (hbl : "" ∉ fields) (hnd : fields.Nodup) (fs : Option DBFile) (m : String) :
    validateDbInitialisation fields fs ≠ some (.valueError m) := by
  simp only [validateDbInitialisation]
  rw [if_neg (by rw [List.length_eq_zero]; exact hne),
    if_neg (by rw [hasMissing_iff]; exact hbl),
    if_neg (by push_neg; exact makeRepeatedFieldsStr_eq_empty.2 hnd)]
  cases fs with
  | none => simp
  | some f =>
    show (if hasMissingFieldNames f.header = true then _ else _) ≠ _
    split
    · simp
    · split
      · simp
      · split
        · simp
        · simp

/-- C7: store construction fails with the InvalidSchema kind (a `ValueError`) exactly
when the supplied field collection is empty, contains the empty string, or contains a
repeated name; the enumeration inside the repeated-name message is sorted and
deduplicated and holds precisely the quoted names of the repeated fields; and in the
repeated-name case the raised message is that enumeration. -/
theorem invalidSchema_characterisation (fields : List String) (fs : Option DBFile) :
    ((∃ m, validateDbInitialisation fields fs = some (.valueError m))
      ↔ (fields = [] ∨ "" ∈ fields ∨ ¬ fields.Nodup))
    ∧ (repeatedFieldsList fields).Pairwise (fun a b => strLe a b = true)
    ∧ (repeatedFieldsList fields).Nodup
    ∧ (∀ s, s ∈ repeatedFieldsList fields
        ↔ ∃ g ∈ fields, 1 < fields.count g ∧ s = strQuote g)
    ∧ (fields ≠ [] → "" ∉ fields → ¬ fields.Nodup →
        validateDbInitialisation fields fs = some (.valueError (repeatedFieldsMsg fields))) := by
  refine ⟨⟨?_, ?_⟩, ?_, ?_, ?_, ?_⟩
  · rintro ⟨m, hm⟩
    by_contra hcon
    push_neg at hcon
    exact validate_not_valueError hcon.1 hcon.2.1 hcon.2.2 fs m hm
  · intro h
    by_cases h0 : fields = []
    · exact ⟨emptyCollectionMsg, by simp [h0, validateDbInitialisation]⟩
    · by_cases h1 : "" ∈ fields
      · refine ⟨emptyFieldNamesMsg, ?_⟩
        simp only [validateDbInitialisation]
        rw [if_neg (by rw [List.length_eq_zero]; exact h0), if_pos (hasMissing_iff.2 h1)]
      · have h2 : ¬ fields.Nodup := by
          rcases h with h | h | h
          · exact absurd h h0
          · exact absurd h h1
          · exact h
        refine ⟨repeatedFieldsMsg fields, ?_⟩
        simp only [validateDbInitialisation]
        rw [if_neg (by rw [List.length_eq_zero]; exact h0),
          if_neg (by rw [hasMissing_iff]; exact h1),
          if_pos (fun he => h2 (makeRepeatedFieldsStr_eq_empty.1 he))]
  · unfold repeatedFieldsList
    exact pairwise_sortStrings _
  · unfold repeatedFieldsList
    exact (sortStrings_perm _).nodup_iff.2 (List.nodup_dedup _)
  · intro s
    unfold repeatedFieldsList
    rw [mem_sortStrings, List.mem_dedup, List.mem_map]
    constructor
    · rintro ⟨g, hg, hsg⟩
      rcases List.mem_filter.1 hg with ⟨hmem, hcnt⟩
      exact ⟨g, hmem, by simpa using hcnt, hsg.symm⟩
    · rintro ⟨g, hmem, hcnt, hsg⟩
      exact ⟨g, List.mem_filter.2 ⟨hmem, by simpa using hcnt⟩, hsg.symm⟩
  · intro h0 h1 h2
    simp only [validateDbInitialisation]
    rw [if_neg (by rw [List.length_eq_zero]; exact h0),
      if_neg (by rw [hasMissing_iff]; exact h1),
      if_pos (fun he => h2 (makeRepeatedFieldsStr_eq_empty.1 he))]

/-- C7 witness: a concrete repeated-name schema raises the `ValueError` whose message
enumerates the sorted, deduplicated repeated names. -/
theorem invalidSchema_characterisation_witness :
    validateDbInitialisation ["b","a","b","c","c"] none
      = some (.valueError (repeatedFieldsMsg ["b","a","b","c","c"]))
    ∧ repeatedFieldsMsg ["b","a","b","c","c"]
      = "Argument 'fields' contains repeated fields: 'b', 'c'." :=
  ⟨(invalidSchema_characterisation ["b","a","b","c","c"] none).2.2.2.2
      (by decide) (by decide) (by decide),
    by decide⟩

/-- C8: create on a record lacking one or more schema fields raises a `ValueError`
whose enumeration is exactly the absent schema fields in schema order (a sublist of the
schema), and performs no write: the file state is returned unchanged, so a missing file
is not created. -/
theorem create_missing_fields_raises (db : CsvDB) (r : Record) (fs : Option DBFile)
    (h : ∃ k ∈ db.fields, rlookup r k = none) :
    create db r fs = (fs, some (.valueError (missingMsg db r)))
    ∧ missingFieldsOf db r ≠ []
    ∧ (missingFieldsOf db r).Sublist db.fields
    ∧ (∀ k, k ∈ missingFieldsOf db r ↔ k ∈ db.fields ∧ rlookup r k = none) := by
  have hne : missingFieldsOf db r ≠ [] := by
    rcases h with ⟨k, hk, hkn⟩
    intro h0
    have hmem : k ∈ missingFieldsOf db r := List.mem_filter.2 ⟨hk, by simp [hkn]⟩
    rw [h0] at hmem
    simp at hmem
  refine ⟨?_, hne, List.filter_sublist _, ?_⟩
  · unfold create
    rw [if_pos hne]
  · intro k
    rw [missingFieldsOf, List.mem_filter]
    simp [Option.isNone_iff_eq_none]

/-- C8 witness: a record missing the field "b" makes create raise the `ValueError`
naming exactly "b", with the missing file left uncreated. -/
theorem create_missing_fields_raises_witness :
    (∃ k ∈ (CsvDB.mk ["a","b"]).fields, rlookup [("a","1")] k = none)
    ∧ create ⟨["a","b"]⟩ [("a","1")] none
        = (none, some (.valueError (missingMsg ⟨["a","b"]⟩ [("a","1")])))
    ∧ missingMsg ⟨["a","b"]⟩ [("a","1")]
        = "Argument 'record' missing the following fields: 'b'." :=
  ⟨by decide, (create_missing_fields_raises ⟨["a","b"]⟩ [("a","1")] none (by decide)).1,
    by decide⟩

/-- C9: for a schema field, retrieve on a missing file, or on a file holding no data
rows, returns the "not found" outcome `none` without raising; for a field outside the
schema, retrieve raises `DatabaseLookupError`. -/
theorem retrieve_empty_and_unknown_field (db : CsvDB) (v f : String) :
    (f ∈ db.fields →
      retrieve db v f none = (none, .ok none)
      ∧ ∀ file : DBFile, file.rows = [] →
          retrieve db v f (some file) = (some file, .ok none))
    ∧ (f ∉ db.fields → ∀ fs,
        retrieve db v f fs = (fs, .error (.databaseLookupError (lookupErrMsg f)))) := by
  constructor
  · intro hf
    constructor
    · simp [retrieve, validateField_mem hf]
    · intro file hrows
      simp [retrieve, validateField_mem hf, dataRecords, hrows]
  · intro hf fs
    simp [retrieve, validateField_not_mem hf]

/-- C9 witness: concrete retrievals on a fresh store and with an unknown field. -/
theorem retrieve_empty_and_unknown_field_witness :
    ((("a" : String) ∈ (CsvDB.mk ["a"]).fields)
      ∧ retrieve ⟨["a"]⟩ "7" "a" none = (none, .ok none)
      ∧ retrieve ⟨["a"]⟩ "7" "a" (some ⟨["a"], []⟩) = (some ⟨["a"], []⟩, .ok none))
    ∧ ((("x" : String) ∉ (CsvDB.mk ["a"]).fields)
      ∧ retrieve ⟨["a"]⟩ "7" "x" none
          = (none, .error (.databaseLookupError (lookupErrMsg "x")))) :=
  ⟨⟨by decide, ((retrieve_empty_and_unknown_field ⟨["a"]⟩ "7" "a").1 (by decide)).1,
      ((retrieve_empty_and_unknown_field ⟨["a"]⟩ "7" "a").1 (by decide)).2 ⟨["a"], []⟩ rfl⟩,
    ⟨by decide, (retrieve_empty_and_unknown_field ⟨["a"]⟩ "7" "x").2 (by decide) none⟩⟩

/-- C10: retrieve and query never modify the store's file: on every exit path,
successful or raising, the file state after the call equals the file state before it. -/
theorem retrieve_query_preserve_file (db : CsvDB) (v f : String)
    (p : Option (Record → Except Err Bool)) (fs : Option DBFile) :
    (retrieve db v f fs).1 = fs ∧ (query db p fs).1 = fs := by
  constructor
  · unfold retrieve
    split
    · rfl
    · split <;> rfl
  · unfold query
    split
    · rfl
    · split
      · rfl
      · split <;> rfl

/-- C5: update with a schema field and a value no data record carries in that field
raises `DatabaseLookupError` (also on a missing file or an empty table) and returns the
file state unchanged, byte for byte. -/
theorem update_no_match_raises (db : CsvDB) (v f : String) (r : Record) (fs : Option DBFile)
    (hf : f ∈ db.fields)
    (hnm : ∀ q ∈ queryRecords db fs, rlookup q f ≠ some v) :
    update db v f r fs = (fs, some (.databaseLookupError (notFoundMsg f v))) := by
  have hidx : indexOfVal v ((queryRecords db fs).map (fun q => rlookup q f)) = none := by
    apply indexOfVal_eq_none
    intro w hw
    rcases List.mem_map.1 hw with ⟨q, hq, hwq⟩
    subst hwq
    exact hnm q hq
  simp only [update, validateField_mem hf, hidx]

/-- C5 witness: a concrete no-match update raises and leaves the one-row file intact. -/
theorem update_no_match_raises_witness :
    (("id" : String) ∈ (CsvDB.mk ["id"]).fields)
    ∧ (∀ q ∈ queryRecords ⟨["id"]⟩ (some ⟨["id"], [["1"]]⟩), rlookup q "id" ≠ some "2")
    ∧ update ⟨["id"]⟩ "2" "id" [("id","2")] (some ⟨["id"], [["1"]]⟩)
        = (some ⟨["id"], [["1"]]⟩, some (.databaseLookupError (notFoundMsg "id" "2"))) :=
  ⟨by decide, by decide,
    update_no_match_raises ⟨["id"]⟩ "2" "id" [("id","2")] (some ⟨["id"], [["1"]]⟩)
      (by decide) (by decide)⟩

/-- C4: on a fresh store (no file yet) with a schema that validates, creating a
sequence of records each keyed by exactly the schema fields and then querying with no
predicate succeeds and returns, in creation order, records dictionary-equal to the ones
written (the model carries values already string-coerced, so the `str()` conversion is
the identity here). -/
theorem createAll_then_query_returns_all (db : CsvDB) (recs : List Record)
    (hval : validateDbInitialisation db.fields none = none)
    (hrecs : ∀ r ∈ recs, (∀ k ∈ db.fields, (rlookup r k).isSome = true)
      ∧ (∀ kv ∈ r, kv.1 ∈ db.fields)) :
    (createAll db recs none).2 = none
    ∧ query db none (createAll db recs none).1
        = ((createAll db recs none).1, .ok (queryRecords db (createAll db recs none).1))
    ∧ List.Forall₂ RecEquiv (queryRecords db (createAll db recs none).1) recs := by
  have hne : db.fields ≠ [] := by
    intro h0
    rw [h0] at hval
    simp [validateDbInitialisation] at hval
  rcases recs with _ | ⟨r, rest⟩
  · exact ⟨rfl, query_none_eq db none, List.Forall₂.nil⟩
  · have h1 := hrecs r (List.mem_cons_self _ _)
    have hrest := fun p hp => hrecs p (List.mem_cons_of_mem _ hp)
    have hca : createAll db (r :: rest) none
        = (some ⟨db.fields, (r :: rest).map (okRow db.fields)⟩, none) := by
      simp only [createAll, create_full_none h1.1 h1.2]
      rw [createAll_from_file rest db.fields [okRow db.fields r] hrest]
      simp
    rw [hca]
    have hqr : queryRecords db (some ⟨db.fields, (r :: rest).map (okRow db.fields)⟩)
        = ((r :: rest).map (okRow db.fields)).map (readRow db.fields) := by
      apply queryRecords_eq hne
      intro c hc
      rcases List.mem_map.1 hc with ⟨p, _, hcp⟩
      subst hcp
      simp [okRow]
    refine ⟨rfl, query_none_eq db _, ?_⟩
    rw [hqr, List.map_map, List.forall₂_map_left_iff]
    rw [List.forall₂_same]
    intro x hx
    exact readRow_equiv (hrecs x hx).1 (hrecs x hx).2

/-- C4 witness: two concrete records created on a fresh store come back from the
no-predicate query in order. -/
theorem createAll_then_query_returns_all_witness :
    (validateDbInitialisation (CsvDB.mk ["id","col1"]).fields none = none)
    ∧ (createAll ⟨["id","col1"]⟩ [[("id","1"),("col1","a")],[("id","2"),("col1","b")]] none).2
        = none
    ∧ List.Forall₂ RecEquiv
        (queryRecords ⟨["id","col1"]⟩
          (createAll ⟨["id","col1"]⟩ [[("id","1"),("col1","a")],[("id","2"),("col1","b")]] none).1)
        [[("id","1"),("col1","a")],[("id","2"),("col1","b")]] :=
  ⟨by decide,
    (createAll_then_query_returns_all ⟨["id","col1"]⟩
      [[("id","1"),("col1","a")],[("id","2"),("col1","b")]] (by decide) (by decide)).1,
    (createAll_then_query_returns_all ⟨["id","col1"]⟩
      [[("id","1"),("col1","a")],[("id","2"),("col1","b")]] (by decide) (by decide)).2.2⟩

/-- C3 counterexample: a record holding every schema field plus the extra key "x" makes
create raise `ValueError` (the csv writer runs with extrasaction="raise") instead of
silently dropping the extra key, and the freshly created file is left with only its
header line, no data line. -/
theorem create_extra_keys_drop_refuted :
    create ⟨["id","col1"]⟩ [("id","1"),("col1","a"),("x","y")] none
      = (some ⟨["id","col1"], []⟩, some (.valueError extrasMsg)) := by decide

/-- C3 amended: create on a record holding a value for every schema field plus one or
more extra keys raises `ValueError` and appends no data line; when the file did not
exist it is still created, holding only the header (written before the failing row
write); an existing file is returned unchanged. -/
theorem create_extra_keys_raises (db : CsvDB) (r : Record) (fs : Option DBFile)
    (hfull : ∀ k ∈ db.fields, (rlookup r k).isSome = true)
    (hex : ∃ kv ∈ r, kv.1 ∉ db.fields) :
    create db r fs
      = (some ((fs.getD ⟨db.fields, []⟩ : DBFile)), some (.valueError extrasMsg)) := by
  have hmiss : missingFieldsOf db r = [] := missingFieldsOf_eq_nil hfull
  unfold create
  rw [if_neg (by simp [hmiss])]
  cases fs with
  | none =>
    rw [dictToList_err hex]
    rfl
  | some f =>
    rw [dictToList_err hex]
    rfl

/-- C3 witness: the same extra-keyed record against an existing one-row file raises and
leaves the file as it was. -/
theorem create_extra_keys_raises_witness :
    (∃ kv ∈ ([("id","1"),("col1","a"),("x","y")] : Record),
      kv.1 ∉ (CsvDB.mk ["id","col1"]).fields)
    ∧ create ⟨["id","col1"]⟩ [("id","1"),("col1","a"),("x","y")]
        (some ⟨["id","col1"], [["0","z"]]⟩)
        = (some ⟨["id","col1"], [["0","z"]]⟩, some (.valueError extrasMsg)) :=
  ⟨by decide,
    create_extra_keys_raises ⟨["id","col1"]⟩ [("id","1"),("col1","a"),("x","y")]
      (some ⟨["id","col1"], [["0","z"]]⟩) (by decide) (by decide)⟩

/-- C6 counterexample: update accepts a replacement record lacking the schema key
"col1": no error is raised, the record is written, and the absent field is stored as
the empty string (the csv writer's restval). -/
theorem update_missing_keys_reject_refuted :
    update ⟨["id","col1"]⟩ "1" "id" [("id","9")] (some ⟨["id","col1"], [["1","a"]]⟩)
      = (some ⟨["id","col1"], [["9",""]]⟩, none) := by decide

/-- C6 amended: update does not reject replacement records lacking schema keys: as long
as the record's keys all lie in the schema, the rewrite succeeds and the replacement row
is the schema-ordered list of the record's values with the empty string standing in for
every absent schema field. -/
theorem update_missing_keys_written_as_empty (db : CsvDB) (value field : String)
    (r : Record) (file : DBFile) (i : Nat)
    (hnd : db.fields.Nodup) (hne : db.fields ≠ [])
    (hlen : ∀ c ∈ file.rows, c.length = db.fields.length)
    (hf : field ∈ db.fields)
    (hkeys : ∀ kv ∈ r, kv.1 ∈ db.fields)
    (hmissing : ∃ k ∈ db.fields, rlookup r k = none)
    (hidx : indexOfVal value ((queryRecords db (some file)).map (fun q => rlookup q field))
      = some i) :
    (update db value field r (some file)).2 = none
    ∧ (update db value field r (some file)).1
        = some ⟨db.fields,
            file.rows.set i (db.fields.map (fun k => (rlookup r k).getD ""))⟩ := by
  rw [update_found hnd hne hlen hf hkeys hidx]
  exact ⟨rfl, rfl⟩

/-- C6 witness: a concrete update with a record missing "col1" succeeds and writes the
empty string in the "col1" position. -/
theorem update_missing_keys_written_as_empty_witness :
    (∃ k ∈ (CsvDB.mk ["id","col1"]).fields, rlookup [("id","9")] k = none)
    ∧ (update ⟨["id","col1"]⟩ "1" "id" [("id","9")]
        (some ⟨["id","col1"], [["1","a"],["2","b"]]⟩)).2 = none
    ∧ (update ⟨["id","col1"]⟩ "1" "id" [("id","9")]
        (some ⟨["id","col1"], [["1","a"],["2","b"]]⟩)).1
        = some ⟨["id","col1"], [["9",""],["2","b"]]⟩ := by
  refine ⟨by decide, ?_, ?_⟩
  · exact (update_missing_keys_written_as_empty ⟨["id","col1"]⟩ "1" "id" [("id","9")]
      ⟨["id","col1"], [["1","a"],["2","b"]]⟩ 0 (by decide) (by decide) (by decide)
      (by decide) (by decide) (by decide) (by decide)).1
  · rw [(update_missing_keys_written_as_empty ⟨["id","col1"]⟩ "1" "id" [("id","9")]
      ⟨["id","col1"], [["1","a"],["2","b"]]⟩ 0 (by decide) (by decide) (by decide)
      (by decide) (by decide) (by decide) (by decide)).2]
    decide

/-- C2 counterexample: a store whose declared field order is the reverse of the file
header (construction on the set-equal header succeeds) holds a record matching
id = "a" as its reader resolves fields, and update replaces it — with every other data
line intact — but writes the header line back in the declared order: the header after
the call is not byte-identical to the header before it. -/
theorem update_header_rewrite_refuted :
    (∃ q ∈ queryRecords ⟨["col1","id"]⟩ (some ⟨["id","col1"], [["1","a"],["2","b"]]⟩),
        rlookup q "id" = some "a")
    ∧ update ⟨["col1","id"]⟩ "a" "id" [("col1","9"),("id","a")]
        (some ⟨["id","col1"], [["1","a"],["2","b"]]⟩)
        = (some ⟨["col1","id"], [["9","a"],["2","b"]]⟩, none)
    ∧ (["col1","id"] : List String) ≠ ["id","col1"] := by
  refine ⟨by decide, by decide, by decide⟩

/-- C2 amended: for a table whose rows have schema arity and a replacement whose keys
lie in the schema, update replaces exactly the record at the first matching position:
the body after the rewrite is the original row list with only position i overwritten,
so every other data line — including any whose content equals the replaced row's — is
byte-for-byte intact and in its original place; the header line, however, is rewritten
in the declared schema order, which coincides with the original header only when the
two orders agree. -/
theorem update_replaces_first_match_frame (db : CsvDB) (value field : String)
    (r : Record) (file : DBFile) (i : Nat)
    (hnd : db.fields.Nodup) (hne : db.fields ≠ [])
    (hlen : ∀ c ∈ file.rows, c.length = db.fields.length)
    (hf : field ∈ db.fields)
    (hkeys : ∀ kv ∈ r, kv.1 ∈ db.fields)
    (hidx : indexOfVal value ((queryRecords db (some file)).map (fun q => rlookup q field))
      = some i) :
    update db value field r (some file)
      = (some ⟨db.fields, file.rows.set i (okRow db.fields r)⟩, none)
    ∧ (file.rows.set i (okRow db.fields r)).length = file.rows.length
    ∧ (∀ j, j ≠ i → (file.rows.set i (okRow db.fields r))[j]? = file.rows[j]?) := by
  refine ⟨update_found hnd hne hlen hf hkeys hidx, List.length_set _ _ _, ?_⟩
  intro j hj
  exact List.getElem?_set_ne (fun h => hj h.symm)

/-- C2 witness: with two byte-identical rows matching id = "1", update rewrites only
the first; the duplicate-content second row survives unchanged. -/
theorem update_replaces_first_match_frame_witness :
    (indexOfVal "1"
      ((queryRecords ⟨["id","col1"]⟩ (some ⟨["id","col1"], [["1","a"],["1","a"]]⟩)).map
        (fun q => rlookup q "id")) = some 0)
    ∧ update ⟨["id","col1"]⟩ "1" "id" [("id","1"),("col1","c")]
        (some ⟨["id","col1"], [["1","a"],["1","a"]]⟩)
        = (some ⟨["id","col1"], [["1","c"],["1","a"]]⟩, none) := by
  refine ⟨by decide, ?_⟩
  rw [(update_replaces_first_match_frame ⟨["id","col1"]⟩ "1" "id" [("id","1"),("col1","c")]
    ⟨["id","col1"], [["1","a"],["1","a"]]⟩ 0 (by decide) (by decide) (by decide)
    (by decide) (by decide) (by decide)).1]
  decide

/-- C1 counterexample: store B, declared ["b","a"], is constructed on a file whose
header is ["a","b"] (construction succeeds on the set-equal header).  B's create of a
record with a = "1", b = "2" appends the line "2,1", positioned by B's declared order,
not the file header.  Store C, opened with the file's own header order ["a","b"],
then cannot read the value "1" back under the key "a": retrieve finds nothing, so
field positions were not resolved against the file's own header. -/
theorem headerOrder_resolution_refuted :
    validateDbInitialisation ["b","a"] (some ⟨["a","b"], []⟩) = none
    ∧ create ⟨["b","a"]⟩ [("a","1"),("b","2")] (some ⟨["a","b"], []⟩)
        = (some ⟨["a","b"], [["2","1"]]⟩, none)
    ∧ validateDbInitialisation ["a","b"] (some ⟨["a","b"], [["2","1"]]⟩) = none
    ∧ (retrieve ⟨["a","b"]⟩ "1" "a" (some ⟨["a","b"], [["2","1"]]⟩)).2 = .ok none := by
  refine ⟨by decide, by decide, by decide, by rfl⟩

/-- C1 amended: construction on an existing file whose header is a set-permutation of
the declared schema succeeds, but every subsequent operation resolves field positions
by the caller-supplied schema order, ignoring the file's header: the appended line is
the record's values in declared order whatever the header says, and a written record is
read back under its own keys only through the same declared order (here: create then
retrieve on the same store round-trips on a header-only file). -/
theorem permuted_open_uses_declared_order (fields header : List String) (r : Record)
    (f : String)
    (hnd : fields.Nodup) (hbl : "" ∉ fields) (hne : fields ≠ [])
    (hhnd : header.Nodup) (hhbl : "" ∉ header)
    (hset : setEq fields header = true)
    (hfull : ∀ k ∈ fields, (rlookup r k).isSome = true)
    (hkeys : ∀ kv ∈ r, kv.1 ∈ fields)
    (hf : f ∈ fields) :
    validateDbInitialisation fields (some ⟨header, []⟩) = none
    ∧ create ⟨fields⟩ r (some ⟨header, []⟩) = (some ⟨header, [okRow fields r]⟩, none)
    ∧ ∃ q, (retrieve ⟨fields⟩ ((rlookup r f).getD "") f
          (some ⟨header, [okRow fields r]⟩)).2 = .ok (some q)
        ∧ RecEquiv q r := by
  have hAne : okRow fields r ≠ [] := by
    intro h0
    exact hne (List.map_eq_nil_iff.1 h0)
  have hread : rlookup (readRow fields (okRow fields r)) f
      = some ((rlookup r f).getD "") := by
    have hz := rlookup_zip_map fields (fun k => (rlookup r k).getD "") f
    rw [if_pos hf] at hz
    exact hz
  have hdata : dataRecords fields ⟨header, [okRow fields r]⟩
      = [readRow fields (okRow fields r)] := by
    unfold dataRecords
    rw [List.filter_eq_self.2]
    · rfl
    · intro c hc
      rcases List.mem_singleton.1 hc with rfl
      simp [List.isEmpty_iff, hAne]
  refine ⟨validate_some_ok hne hbl hnd hhbl hhnd hset,
    create_full_some ⟨header, []⟩ hfull hkeys, readRow fields (okRow fields r), ?_, ?_⟩
  · show (retrieve ⟨fields⟩ ((rlookup r f).getD "") f (some ⟨header, [okRow fields r]⟩)).2
      = .ok (some (readRow fields (okRow fields r)))
    rw [retrieve, validateField_mem hf]
    show Except.ok ((dataRecords fields ⟨header, [okRow fields r]⟩).find?
      (fun q => rlookup q f == some ((rlookup r f).getD ""))) = _
    rw [hdata]
    simp [List.find?, hread]
  · exact readRow_equiv hfull hkeys

/-- C1 witness: declared ["b","a"] on header ["a","b"]: construction succeeds, the
appended line carries the record's values in declared order, and the same store reads
the record back. -/
theorem permuted_open_uses_declared_order_witness :
    (setEq ["b","a"] ["a","b"] = true)
    ∧ validateDbInitialisation ["b","a"] (some ⟨["a","b"], []⟩) = none
    ∧ create ⟨["b","a"]⟩ [("a","1"),("b","2")] (some ⟨["a","b"], []⟩)
        = (some ⟨["a","b"], [okRow ["b","a"] [("a","1"),("b","2")]]⟩, none) :=
  ⟨by decide,
    (permuted_open_uses_declared_order ["b","a"] ["a","b"] [("a","1"),("b","2")] "a"
      (by decide) (by decide) (by decide) (by decide) (by decide) (by decide)
      (by decide) (by decide) (by decide)).1,
    (permuted_open_uses_declared_order ["b","a"] ["a","b"] [("a","1"),("b","2")] "a"
      (by decide) (by decide) (by decide) (by decide) (by decide) (by decide)
      (by decide) (by decide) (by decide)).2.1⟩

end CsvDb
